import Mathlib

/-!
Verification of the SYAMFP formula parser (`include/syamfp.hpp`).

The development shallowly embeds the header's pipeline:
tokenizer (`devide_to_tokens`) → Shunting-Yard converter (`make_rpn`) →
RPN compiler (`compile_RPN`) → evaluator (the closure built by
`Syamfp::ret_func`).

Number type: the C++ code is templated over a `MathConcept Type`
(instantiated with `double` by default).  The embedding fixes the carrier to
`ℚ`, which models IEEE double exactly on every literal and arithmetic step the
claims exercise (small integers, `+`, `-`, `*`), and keeps the mathematical
library (`std::sin`, `std::pow`, …, the `std::numbers` constants and the
imaginary unit) abstract in a `MathOps` record, mirroring the template
parameter.  Native function pointers are modelled by the enumeration
`FuncId` — one constructor per distinct lambda in the source, so that pointer
comparison (`func != nullptr`, `Token::operator==`) is represented faithfully.
-/

namespace SYAMFP

/-- Models `Details::ValueType` / the `MathConcept` carrier type; `ℚ` is an
exact model of `double` on every value the claims compute with. -/
abbrev ValueType := ℚ

/-- The mathematical library required by the `MathConcept` concept
(lines 45-73): the seventeen `std::` functions, the twelve `std::numbers`
constants used by the reserved-token table, and the imaginary unit `1.0i`
cast into the carrier.  Left abstract — no claim depends on their values
except `sin 0 = 0` and `pow` on small integer arguments, which are stated as
hypotheses where needed. -/
structure MathOps where
  sin : ValueType → ValueType
  cos : ValueType → ValueType
  tan : ValueType → ValueType
  asin : ValueType → ValueType
  acos : ValueType → ValueType
  atan : ValueType → ValueType
  sinh : ValueType → ValueType
  cosh : ValueType → ValueType
  tanh : ValueType → ValueType
  asinh : ValueType → ValueType
  acosh : ValueType → ValueType
  atanh : ValueType → ValueType
  exp : ValueType → ValueType
  log : ValueType → ValueType
  log10 : ValueType → ValueType
  sqrt : ValueType → ValueType
  pow : ValueType → ValueType → ValueType
  pi : ValueType
  inv_pi : ValueType
  inv_sqrtpi : ValueType
  e : ValueType
  sqrt2 : ValueType
  sqrt3 : ValueType
  ln2 : ValueType
  ln10 : ValueType
  log2e : ValueType
  log10e : ValueType
  egamma : ValueType
  phi : ValueType
  imagUnit : ValueType

/-- Models `Details::TokenType` (lines 79-92). -/
inductive TokenType where
  | Variable
  | Constant
  | Real
  | Imaginary
  | Operator
  | Func1
  | Func2
  | Func3
  | LParen
  | RParen
  | Comma
deriving DecidableEq

/-- One constructor per lambda stored in `RESERVED_TOKEN` (lines 121-285).
Distinct lambdas in the source get distinct constructors even when they call
the same library function (`log` vs `ln`, the `^` operator's lambda vs
`pow`'s), so that equality of `FuncId`s models equality of the C++ function
pointers. -/
inductive FuncId where
  | add
  | sub
  | mul
  | div
  | powOp
  | sin
  | cos
  | tan
  | asin
  | acos
  | atan
  | sinh
  | cosh
  | tanh
  | asinh
  | acosh
  | atanh
  | exp
  | log
  | log10
  | ln
  | sqrt
  | pow
deriving DecidableEq

/-- The body of the lambda named by a `FuncId`, applied to the argument
vector (`args[0]`, `args[1]`); out-of-range reads default to `0` and never
occur on the argument vectors the compiler builds. -/
def applyFunc (ops : MathOps) : FuncId → List ValueType → ValueType
  | .add, a => a.getD 0 0 + a.getD 1 0
  | .sub, a => a.getD 0 0 - a.getD 1 0
  | .mul, a => a.getD 0 0 * a.getD 1 0
  | .div, a => a.getD 0 0 / a.getD 1 0
  | .powOp, a => ops.pow (a.getD 0 0) (a.getD 1 0)
  | .sin, a => ops.sin (a.getD 0 0)
  | .cos, a => ops.cos (a.getD 0 0)
  | .tan, a => ops.tan (a.getD 0 0)
  | .asin, a => ops.asin (a.getD 0 0)
  | .acos, a => ops.acos (a.getD 0 0)
  | .atan, a => ops.atan (a.getD 0 0)
  | .sinh, a => ops.sinh (a.getD 0 0)
  | .cosh, a => ops.cosh (a.getD 0 0)
  | .tanh, a => ops.tanh (a.getD 0 0)
  | .asinh, a => ops.asinh (a.getD 0 0)
  | .acosh, a => ops.acosh (a.getD 0 0)
  | .atanh, a => ops.atanh (a.getD 0 0)
  | .exp, a => ops.exp (a.getD 0 0)
  | .log, a => ops.log (a.getD 0 0)
  | .log10, a => ops.log10 (a.getD 0 0)
  | .ln, a => ops.log (a.getD 0 0)
  | .sqrt, a => ops.sqrt (a.getD 0 0)
  | .pow, a => ops.pow (a.getD 0 0) (a.getD 1 0)

/-- Models `Details::Token` (lines 95-108).  `func = none` models a null
function pointer.  `arg_num` is an `int` in the source; every token the
program constructs stores a value in `{0, 1, 2, 3}`, so `ℕ` is used. -/
structure Token where
  str : String
  type : TokenType
  arg_num : ℕ
  value : ValueType
  func : Option FuncId
deriving DecidableEq

/-- Models the dereferenced `LPAREN_p` constant (line 287-288): the `"("`
entry of the reserved-token table. -/
def LPAREN : Token := ⟨"(", TokenType.LParen, 0, 0, none⟩

/-- Models `RESERVED_TOKEN` (an `unordered_map`) together with any entries
added by `add_custom_function`: an association list looked up by key. -/
abbrev Registry := List (String × Token)

/-- Map lookup, modelling `unordered_map::find` / `::at`. -/
def Registry.find? (reg : Registry) (s : String) : Option Token :=
  reg.lookup s

/-- Models `unordered_map::insert` (used by `add_custom_function`,
line 853): the pair is added only when the key is absent; an existing entry
is NOT overwritten. -/
def Registry.insert (reg : Registry) (s : String) (t : Token) : Registry :=
  if (reg.lookup s).isSome then reg else (s, t) :: reg

/-- Models `add_custom_function` (lines 850-857): builds a token whose
`value` is `0.0` and inserts it under `name`. -/
def add_custom_function (reg : Registry) (name : String) (type : TokenType)
    (arg_num : ℕ) (lambda : FuncId) : Registry :=
  Registry.insert reg name ⟨name, type, arg_num, 0, some lambda⟩

/-- The initial contents of `RESERVED_TOKEN` (lines 121-285), in source
order.  Note the `"^"` entry really carries `str = "/"` in the source
(line 130); this field is dead because the `Token(string)` constructor keeps
the looked-up text and copies only the remaining fields. -/
def defaultRegistry (ops : MathOps) : Registry :=
  [ ("+", ⟨"+", TokenType.Operator, 2, 0, some FuncId.add⟩),
    ("-", ⟨"-", TokenType.Operator, 2, 0, some FuncId.sub⟩),
    ("*", ⟨"*", TokenType.Operator, 2, 0, some FuncId.mul⟩),
    ("/", ⟨"/", TokenType.Operator, 2, 0, some FuncId.div⟩),
    ("^", ⟨"/", TokenType.Operator, 2, 0, some FuncId.powOp⟩),
    ("(", ⟨"(", TokenType.LParen, 0, 0, none⟩),
    (")", ⟨")", TokenType.RParen, 0, 0, none⟩),
    (",", ⟨",", TokenType.Comma, 0, 0, none⟩),
    ("pi", ⟨"pi", TokenType.Constant, 0, ops.pi, none⟩),
    ("inv_pi", ⟨"inv_pi", TokenType.Constant, 0, ops.inv_pi, none⟩),
    ("inv_sqrtpi", ⟨"inv_sqrtpi", TokenType.Constant, 0, ops.inv_sqrtpi, none⟩),
    ("e", ⟨"e", TokenType.Constant, 0, ops.e, none⟩),
    ("sqrt2", ⟨"sqrt2", TokenType.Constant, 0, ops.sqrt2, none⟩),
    ("sqrt3", ⟨"sqrt3", TokenType.Constant, 0, ops.sqrt3, none⟩),
    ("ln2", ⟨"ln2", TokenType.Constant, 0, ops.ln2, none⟩),
    ("ln10", ⟨"ln10", TokenType.Constant, 0, ops.ln10, none⟩),
    ("log2e", ⟨"log2e", TokenType.Constant, 0, ops.log2e, none⟩),
    ("log10e", ⟨"log10e", TokenType.Constant, 0, ops.log10e, none⟩),
    ("egamma", ⟨"egamma", TokenType.Constant, 0, ops.egamma, none⟩),
    ("phi", ⟨"phi", TokenType.Constant, 0, ops.phi, none⟩),
    ("sin", ⟨"sin", TokenType.Func1, 1, 0, some FuncId.sin⟩),
    ("cos", ⟨"cos", TokenType.Func1, 1, 0, some FuncId.cos⟩),
    ("tan", ⟨"tan", TokenType.Func1, 1, 0, some FuncId.tan⟩),
    ("asin", ⟨"asin", TokenType.Func1, 1, 0, some FuncId.asin⟩),
    ("acos", ⟨"acos", TokenType.Func1, 1, 0, some FuncId.acos⟩),
    ("atan", ⟨"atan", TokenType.Func1, 1, 0, some FuncId.atan⟩),
    ("sinh", ⟨"sinh", TokenType.Func1, 1, 0, some FuncId.sinh⟩),
    ("cosh", ⟨"cosh", TokenType.Func1, 1, 0, some FuncId.cosh⟩),
    ("tanh", ⟨"tanh", TokenType.Func1, 1, 0, some FuncId.tanh⟩),
    ("asinh", ⟨"asinh", TokenType.Func1, 1, 0, some FuncId.asinh⟩),
    ("acosh", ⟨"acosh", TokenType.Func1, 1, 0, some FuncId.acosh⟩),
    ("atanh", ⟨"atanh", TokenType.Func1, 1, 0, some FuncId.atanh⟩),
    ("exp", ⟨"exp", TokenType.Func1, 1, 0, some FuncId.exp⟩),
    ("log", ⟨"log", TokenType.Func1, 1, 0, some FuncId.log⟩),
    ("log10", ⟨"log10", TokenType.Func1, 1, 0, some FuncId.log10⟩),
    ("ln", ⟨"ln", TokenType.Func1, 1, 0, some FuncId.ln⟩),
    ("sqrt", ⟨"sqrt", TokenType.Func1, 1, 0, some FuncId.sqrt⟩),
    ("pow", ⟨"pow", TokenType.Func2, 2, 0, some FuncId.pow⟩) ]

/-- Consume the digits `\d*` at the head of the character list
(helper for the regex matchers of lines 290-300). -/
def skipDigits : List Char → List Char
  | [] => []
  | c :: cs => if c.isDigit then skipDigits cs else c :: cs

/-- Match `\d+` at the head: at least one digit, then return the rest. -/
def matchDigits1 : List Char → Option (List Char)
  | [] => none
  | c :: cs => if c.isDigit then some (skipDigits cs) else none

/-- Consume an optional leading `[+-]`. -/
def dropSignChar : List Char → List Char
  | '+' :: cs => cs
  | '-' :: cs => cs
  | cs => cs

/-- Match the optional fractional group `(\.\d+)?`.  A leading `.` forces the
group (no other regex alternative can consume a `.`), making the match
deterministic. -/
def matchFracOpt : List Char → Option (List Char)
  | '.' :: cs => matchDigits1 cs
  | cs => some cs

/-- Match the optional exponent group `([eE][+-]?\d+)?`; as for the fraction,
a leading `e`/`E` forces the group. -/
def matchExpOpt : List Char → Option (List Char)
  | [] => some []
  | c :: cs =>
    if c = 'e' ∨ c = 'E' then matchDigits1 (dropSignChar cs) else some (c :: cs)

/-- Models `is_real` (lines 290-294): full match of
`^[+-]?\d+(\.\d+)?([eE][+-]?\d+)?$`. -/
def is_real (s : String) : Bool :=
  match matchDigits1 (dropSignChar s.toList) with
  | none => false
  | some cs =>
    match matchFracOpt cs with
    | none => false
    | some cs =>
      match matchExpOpt cs with
      | none => false
      | some cs => cs.isEmpty

/-- Models `is_imaginary` (lines 296-300): full match of
`^[+-]?\d*(\.\d+)?([eE][+-]?\d+)?i$`. -/
def is_imaginary (s : String) : Bool :=
  match matchFracOpt (skipDigits (dropSignChar s.toList)) with
  | none => false
  | some cs =>
    match matchExpOpt cs with
    | none => false
    | some cs => cs = ['i']

/-- Numeric value of a digit character. -/
def digitVal (c : Char) : ℕ := c.toNat - 48

/-- Read a maximal digit run, returning (value, digit count, rest). -/
def readDigits : List Char → ℕ → ℕ → ℕ × ℕ × List Char
  | [], acc, cnt => (acc, cnt, [])
  | c :: cs, acc, cnt =>
    if c.isDigit then readDigits cs (acc * 10 + digitVal c) (cnt + 1)
    else (acc, cnt, c :: cs)

/-- Models `std::from_chars` on a string accepted by `is_real`: the exact
decimal value `sign * (ipart.frac) * 10^exponent` as one normalized rational
(built with `mkRat` over integer arithmetic).  This coincides with the
`double` result on every literal the claims evaluate (small integers,
exactly representable).  `from_chars` rejects a leading `+` (leaving the C++
`val` unread); no reachable call site produces such a string, and the model
simply skips the sign. -/
def parseDecimal (s : String) : ValueType :=
  let cs := s.toList
  let sgn : Int := if cs.head? = some '-' then -1 else 1
  let cs := dropSignChar cs
  let p1 := readDigits cs 0 0
  let ipart := p1.1
  let rest := p1.2.2
  let p2 := match rest with
    | '.' :: cs2 => readDigits cs2 0 0
    | _ => (0, 0, rest)
  let fnum := p2.1
  let fcnt := p2.2.1
  let rest2 := p2.2.2
  let eneg : Bool := match rest2 with
    | 'e' :: '-' :: _ => true
    | 'E' :: '-' :: _ => true
    | _ => false
  let p3 := match rest2 with
    | 'e' :: cs3 => readDigits (dropSignChar cs3) 0 0
    | 'E' :: cs3 => readDigits (dropSignChar cs3) 0 0
    | _ => (0, 0, ([] : List Char))
  let ev := p3.1
  let mantNum : Int := sgn * ((ipart : Int) * (10 ^ fcnt : ℕ) + (fnum : Int))
  if eneg then mkRat mantNum (10 ^ fcnt * 10 ^ ev)
  else mkRat (mantNum * (10 ^ ev : ℕ)) (10 ^ fcnt)

/-- The coefficient parsed for an imaginary literal (lines 353-359):
`from_chars` over the string minus its trailing `i`, with the special case
that a bare `"i"` means `1.0`. -/
def parseImagCoeff (s : String) : ValueType :=
  if s.length = 1 then 1 else parseDecimal ⟨s.toList.dropLast⟩

/-- Models the classifying constructor `Token::Token(const std::string&)`
(lines 333-363): reserved lookup first (keeping the INPUT text as `str` and
copying the remaining fields), then the real- and imaginary-literal rules
(an imaginary literal stores its coefficient times `1.0i`, modelled by
`ops.imagUnit`), otherwise a Variable. -/
def Token.ofString (ops : MathOps) (reg : Registry) (s : String) : Token :=
  match reg.find? s with
  | some t => ⟨s, t.type, t.arg_num, t.value, t.func⟩
  | none =>
    if is_real s then ⟨s, TokenType.Real, 0, parseDecimal s, none⟩
    else if is_imaginary s then
      ⟨s, TokenType.Imaginary, 0, parseImagCoeff s * ops.imagUnit, none⟩
    else ⟨s, TokenType.Variable, 0, 0, none⟩

/-- Models the local `is_operator` lambda of `devide_to_tokens`
(lines 374-385): the string is a reserved Operator / paren / comma symbol. -/
def is_op_str (reg : Registry) (s : String) : Bool :=
  match reg.find? s with
  | none => false
  | some t =>
    t.type = TokenType.Operator ∨ t.type = TokenType.LParen
      ∨ t.type = TokenType.RParen ∨ t.type = TokenType.Comma

/-- The character loop of `devide_to_tokens` (lines 387-418): `cand` is the
current candidate substring (the `string_view str`, always the slice of the
formula ending just before the current character), `acc` the tokens flushed
so far.  `Char.isWhitespace` models `std::isspace` on every character the
formulas contain. -/
def tokensGo (ops : MathOps) (reg : Registry) :
    List Char → String → List Token → List Token
  | [], cand, acc =>
    if cand.isEmpty then acc else acc ++ [Token.ofString ops reg cand]
  | c :: cs, cand, acc =>
    if c.isWhitespace then
      if cand.isEmpty then tokensGo ops reg cs "" acc
      else tokensGo ops reg cs "" (acc ++ [Token.ofString ops reg cand])
    else if cand.isEmpty then
      tokensGo ops reg cs (String.singleton c) acc
    else if is_op_str reg (cand.push c) then
      tokensGo ops reg cs (cand.push c) acc
    else if is_op_str reg cand || is_op_str reg (String.singleton c) then
      tokensGo ops reg cs (String.singleton c) (acc ++ [Token.ofString ops reg cand])
    else
      tokensGo ops reg cs (cand.push c) acc

/-- Models `devide_to_tokens` (lines 368-421). -/
def devide_to_tokens (ops : MathOps) (reg : Registry) (formula : String) :
    List Token :=
  tokensGo ops reg formula.toList "" []

/-- Models `has_LParen` (lines 428-432): `std::ranges::find` over the stack
with `Token::operator==` against `*LPAREN_p`.  `operator==` compares every
field, the function pointer by address; a pointer equals `nullptr` exactly
when the token has no function, i.e. `func = none`. -/
def has_LParen (stack : List Token) : Bool :=
  stack.any (fun t => t = LPAREN)

/-- The `while (true)` pop loop of `case_of_RParen` (lines 440-448): pop and
emit until a token of type `LParen` is popped (discarded).  The `[]` case is
unreachable because the caller has checked `has_LParen`.  The stack top is
the list head. -/
def rparenLoop (rpn stack : List Token) : List Token × List Token :=
  match stack with
  | [] => (rpn, [])
  | t :: rest =>
    if t.type = TokenType.LParen then (rpn, rest)
    else rparenLoop (rpn ++ [t]) rest

/-- Models `case_of_RParen` (lines 434-463).  Returns `none` for the C++
`false` (no `(` anywhere on the stack).  After the paren is discarded, the
new stack top is popped and emitted when `token_before_RParen.func` is a
non-null pointer (`isSome`). -/
def case_of_RParen (rpn stack : List Token) :
    Option (List Token × List Token) :=
  if has_LParen stack then
    let rs := rparenLoop rpn stack
    match rs.2 with
    | [] => some (rs.1, [])
    | t :: rest =>
      if t.func.isSome then some (rs.1 ++ [t], rest) else some (rs.1, t :: rest)
  else none

/-- The pop loop of `case_of_Comma` (lines 471-474): emit and pop while the
top is not `==` the `LPAREN` entry.  `[]` is unreachable (guarded by
`has_LParen`, which uses the same full-token comparison). -/
def commaLoop (rpn stack : List Token) : List Token × List Token :=
  match stack with
  | [] => (rpn, [])
  | t :: rest =>
    if t = LPAREN then (rpn, t :: rest) else commaLoop (rpn ++ [t]) rest

/-- Models `case_of_Comma` (lines 465-477). -/
def case_of_Comma (rpn stack : List Token) :
    Option (List Token × List Token) :=
  if has_LParen stack then some (commaLoop rpn stack) else none

/-- Models `is_left_assoc` (lines 302-315).  `LEFT_ASSOC_LIST.at` throws for
any other key; every call in the program passes one of the five operator
texts, and the model returns `false` on the unreachable keys. -/
def is_left_assoc (op : String) : Bool :=
  match op with
  | "+" => true
  | "-" => true
  | "*" => true
  | "/" => true
  | "^" => false
  | _ => false

/-- Models `ret_preced` (lines 317-330); same remark about `.at` as for
`is_left_assoc`. -/
def ret_preced (op : String) : Int :=
  match op with
  | "+" => 0
  | "-" => 0
  | "*" => 1
  | "/" => 1
  | "^" => 2
  | _ => 0

/-- The precedence pop loop of `case_of_Operator` (lines 497-515): pop and
emit while the top is an Operator whose precedence wins, then push the
token. -/
def opPopLoop (rpn stack : List Token) (token : Token) :
    List Token × List Token :=
  match stack with
  | [] => (rpn, [token])
  | p :: rest =>
    if p.type ≠ TokenType.Operator then (rpn, token :: p :: rest)
    else if (if is_left_assoc token.str
             then ret_preced token.str > ret_preced p.str
             else ret_preced token.str ≥ ret_preced p.str) then
      (rpn, token :: p :: rest)
    else opPopLoop (rpn ++ [p]) rest token

/-- Models `case_of_Operator` (lines 479-516): unary-sign rewriting when the
previous token was operator-like (`+` is dropped; `-` emits a synthetic
`-1` literal and is reprocessed as `*`), then the precedence pop loop. -/
def case_of_Operator (ops : MathOps) (reg : Registry) (rpn stack : List Token)
    (token : Token) (is_prev_token_operator : Bool) :
    List Token × List Token :=
  if is_prev_token_operator ∧ token.str = "+" then (rpn, stack)
  else if is_prev_token_operator ∧ token.str = "-" then
    opPopLoop (rpn ++ [Token.ofString ops reg "-1"]) stack
      (Token.ofString ops reg "*")
  else opPopLoop rpn stack token

/-- The final drain of `make_rpn` (lines 578-584): pop the remaining stack
into the output, failing (empty sentinel) if a `(` is still present. -/
def rpnDrain (rpn stack : List Token) : List Token :=
  match stack with
  | [] => rpn
  | t :: rest =>
    if has_LParen (t :: rest) then [] else rpnDrain (rpn ++ [t]) rest

/-- The token loop of `make_rpn` (lines 530-575), dispatching on the token
type and threading the `is_prev_token_operator` flag; a `false` from the
paren/comma handlers returns the `BAD_RPNs` sentinel (the empty list). -/
def rpnLoop (ops : MathOps) (reg : Registry) :
    List Token → List Token → List Token → Bool → List Token
  | [], rpn, stack, _ => rpnDrain rpn stack
  | token :: rest, rpn, stack, prev =>
    match token.type with
    | TokenType.Variable | TokenType.Constant
    | TokenType.Real | TokenType.Imaginary =>
      rpnLoop ops reg rest (rpn ++ [token]) stack false
    | TokenType.Func1 | TokenType.Func2 | TokenType.Func3 =>
      rpnLoop ops reg rest rpn (token :: stack) false
    | TokenType.LParen =>
      rpnLoop ops reg rest rpn (token :: stack) true
    | TokenType.RParen =>
      match case_of_RParen rpn stack with
      | none => []
      | some rs => rpnLoop ops reg rest rs.1 rs.2 false
    | TokenType.Comma =>
      match case_of_Comma rpn stack with
      | none => []
      | some rs => rpnLoop ops reg rest rs.1 rs.2 false
    | TokenType.Operator =>
      let rs := case_of_Operator ops reg rpn stack token prev
      rpnLoop ops reg rest rs.1 rs.2 true

/-- Models `make_rpn` (lines 521-587).  The `BAD_RPNs` failure sentinel is
the empty list; note `rpn == BAD_RPNs` in the caller is plain
`std::vector` equality with an empty vector, i.e. an emptiness test. -/
def make_rpn (ops : MathOps) (reg : Registry) (formula : String) :
    List Token :=
  rpnLoop ops reg (devide_to_tokens ops reg formula) [] [] true

/-- Models `VariableTable` (lines 590-678): an association list whose lookup
takes the most recent binding, so cons is exactly `variables[str] = val`
over-write insertion. -/
abbrev VarTable := List (String × ValueType)

/-- Models `VariableTable::contains`. -/
def VarTable.contains (t : VarTable) (s : String) : Bool :=
  (t.lookup s).isSome

/-- Models `VariableTable::at`; `none` models the `std::out_of_range` throw
for an absent name. -/
def VarTable.find? (t : VarTable) (s : String) : Option ValueType :=
  t.lookup s

/-- Models `insert_variable` / `operator+=` (lines 596-599, 656-660):
overwrite insertion. -/
def VarTable.insert (t : VarTable) (s : String) (v : ValueType) : VarTable :=
  (s, v) :: t

/-- One compiled operation: the data captured by each lambda that
`compile_RPN` appends to the `CompiledRPN` vector (lines 713-745).
`pushVar` looks the name up in the table at run time, `pushVal` pushes the
embedded constant, `applyTok` pops `arg_num` values and applies the captured
function pointer. -/
inductive Op where
  | pushVar (name : String)
  | pushVal (v : ValueType)
  | applyTok (arg_num : ℕ) (func : Option FuncId)
deriving DecidableEq

/-- Executes one compiled lambda against the working stack (top = list head,
matching `deque::back`) and the variable table.  `none` models the run-time
faults: `table.at` throwing for an absent variable, popping an empty stack,
and calling a null function pointer. -/
def runOp (ops : MathOps) (op : Op) (stack : List ValueType)
    (table : VarTable) : Option (List ValueType) :=
  match op with
  | Op.pushVar name =>
    match table.find? name with
    | some v => some (v :: stack)
    | none => none
  | Op.pushVal v => some (v :: stack)
  | Op.applyTok k f =>
    if stack.length < k then none
    else
      match f with
      | some fid =>
        some (applyFunc ops fid (stack.take k).reverse :: stack.drop k)
      | none => none

/-- Executes the compiled operation list in order (the `for` loop in the
closure returned by `ret_func`, lines 841-843). -/
def runOps (ops : MathOps) :
    List Op → List ValueType → VarTable → Option (List ValueType)
  | [], stack, _ => some stack
  | op :: rest, stack, table =>
    match runOp ops op stack table with
    | some stack1 => runOps ops rest stack1 table
    | none => none

/-- Models `unordered_set::insert` into the free-variable list
(`var_list.insert`, line 714): membership-preserving insertion. -/
def insertVar (vl : List String) (s : String) : List String :=
  if s ∈ vl then vl else vl ++ [s]

/-- The token walk of `compile_RPN` (lines 710-748): `cnt` is the `int`
simulated stack depth `var_cnt`, `acc` the compiled list, `vl` the
free-variable set.  Note the source's `switch` has no case for parens or
commas (which `make_rpn` never emits): such a token appends no operation yet
still reaches the trailing `var_cnt++`.  The pair's second component is the
state of the by-reference `var_list` argument when the function returns or
throws. -/
def compileGo :
    List Token → Int → List Op → List String →
      Except String (List Op) × List String
  | [], cnt, acc, vl =>
    (if cnt = 1 then Except.ok acc
     else Except.error "Invalid formula: some functions have too many arguments",
     vl)
  | t :: rest, cnt, acc, vl =>
    match t.type with
    | TokenType.Variable =>
      compileGo rest (cnt + 1) (acc ++ [Op.pushVar t.str]) (insertVar vl t.str)
    | TokenType.Constant | TokenType.Real | TokenType.Imaginary =>
      compileGo rest (cnt + 1) (acc ++ [Op.pushVal t.value]) vl
    | TokenType.Operator | TokenType.Func1
    | TokenType.Func2 | TokenType.Func3 =>
      if cnt - t.arg_num < 0 then
        (Except.error
          ("Invalid formula: missing number of argument for " ++ t.str), vl)
      else
        compileGo rest (cnt - t.arg_num + 1)
          (acc ++ [Op.applyTok t.arg_num t.func]) vl
    | TokenType.LParen | TokenType.RParen | TokenType.Comma =>
      compileGo rest (cnt + 1) acc vl

/-- Models `compile_RPN` (lines 703-755): `var_list` is cleared on entry,
`var_cnt` starts at `0`, and the final count must be exactly `1`. -/
def compile_RPN (rpn : List Token) : Except String (List Op) × List String :=
  compileGo rpn 0 [] []

/-- Models the `Syamfp` class state (lines 759-767). -/
structure Syamfp where
  formula : String
  table : VarTable
  vars : List String
  crpn : List Op
deriving DecidableEq

/-- The default-constructed `Syamfp()` (line 769): all members empty. -/
def Syamfp.init : Syamfp := ⟨"", [], [], []⟩

/-- Models `Syamfp::parse(formula)` (lines 781-796).  `-22` is `-EINVAL`.
The member `vars` is passed by reference into `compile_RPN`, so it is
updated even when compilation throws; `crpn` and `formula` are assigned only
on success. -/
def Syamfp.parse (ops : MathOps) (reg : Registry) (s : Syamfp)
    (formula : String) : Int × Syamfp :=
  let rpn := make_rpn ops reg formula
  if rpn = [] then (-22, s)
  else
    match compile_RPN rpn with
    | (Except.ok crpn, vl) =>
      (0, { s with crpn := crpn, formula := formula, vars := vl })
    | (Except.error _, vl) => (-22, { s with vars := vl })

/-- Models `Syamfp::ret_func` (lines 823-847).  The error is the
`std::runtime_error` thrown when some recorded variable is neither bound nor
the designated free variable.  On success the closure copies the table,
merges in the free variable's value, runs the compiled list against an empty
working stack and returns `stack.front()`; reading the front of an empty
deque (undefined behaviour in C++) and any run-time fault are modelled by
`none`. -/
def Syamfp.ret_func (ops : MathOps) (s : Syamfp) (variable_string : String) :
    Except String (ValueType → Option ValueType) :=
  if s.vars.any
      (fun str => decide (s.table.contains str = false ∧ str ≠ variable_string))
  then Except.error "Invalid function: some variable are not determined"
  else
    Except.ok (fun value =>
      (runOps ops s.crpn [] (s.table.insert variable_string value)).bind
        (fun stack => stack.getLast?))

/-- Evaluates a closed formula through the public pipeline: parse from a
default-constructed handle, build the unary evaluator for a dummy free
variable and apply it to `0`. -/
def evalFormula (ops : MathOps) (formula : String) : Option ValueType :=
  let rs := Syamfp.parse ops (defaultRegistry ops) Syamfp.init formula
  if rs.1 = 0 then
    match rs.2.ret_func ops "x" with
    | Except.ok f => f 0
    | Except.error _ => none
  else none

/-- Integer power on `ℚ`, used by the sample instantiation below for
`std::pow`: exact on nonnegative integer exponents (where `double` `pow` is
also exact for the small bases the claims use). -/
def intPow (a b : ValueType) : ValueType :=
  if b.den = 1 ∧ 0 ≤ b.num then a ^ b.num.toNat else 0

/-- A concrete `MathOps` instantiation used to evaluate the development on
closed inputs.  Its fields agree with the IEEE-double library on the points
the claims exercise (`sin 0 = 0`, `pow` on small nonnegative integer
arguments); elsewhere the values are irrelevant to every claim. -/
def sampleOps : MathOps where
  sin := fun _ => 0
  cos := fun _ => 0
  tan := fun _ => 0
  asin := fun _ => 0
  acos := fun _ => 0
  atan := fun _ => 0
  sinh := fun _ => 0
  cosh := fun _ => 0
  tanh := fun _ => 0
  asinh := fun _ => 0
  acosh := fun _ => 0
  atanh := fun _ => 0
  exp := fun _ => 0
  log := fun _ => 0
  log10 := fun _ => 0
  sqrt := fun _ => 0
  pow := intPow
  pi := 0
  inv_pi := 0
  inv_sqrtpi := 0
  e := 0
  sqrt2 := 0
  sqrt3 := 0
  ln2 := 0
  ln10 := 0
  log2e := 0
  log10e := 0
  egamma := 0
  phi := 0
  imagUnit := 0

/-- The depth-counting rule of §4.4 of the specification, modelled from the
claim's words so that `compile_RPN` can be compared against it: each
Variable/Constant/Real/Imaginary token increments a depth counter starting
at `0` by one; each Operator/Function token first decrements it by its arity
and fails if the counter becomes negative, then increments it by one; the
scan succeeds exactly when no decrement goes negative and the final depth is
one.  Paren/comma tokens are not part of a postfix sequence and fail the
scan. -/
def depthScan : List Token → Int → Bool
  | [], d => d == 1
  | t :: rest, d =>
    match t.type with
    | TokenType.Variable | TokenType.Constant
    | TokenType.Real | TokenType.Imaginary => depthScan rest (d + 1)
    | TokenType.Operator | TokenType.Func1
    | TokenType.Func2 | TokenType.Func3 =>
      if d - t.arg_num < 0 then false else depthScan rest (d - t.arg_num + 1)
    | TokenType.LParen | TokenType.RParen | TokenType.Comma => false

/- Batteries marks the `Rat` arithmetic operations `@[irreducible]`; this
re-enables their definitional unfolding so that closed runs of the embedded
pipeline can be evaluated by `decide` and `rfl`. -/
attribute [local semireducible] Rat.add Rat.mul Rat.sub Rat.inv

theorem insertVar_subset (vl : List String) (s : String) :
    vl ⊆ insertVar vl s := by
  unfold insertVar
  split
  · exact List.Subset.refl vl
  · exact List.subset_append_left vl [s]

theorem insertVar_self_mem (vl : List String) (s : String) :
    s ∈ insertVar vl s := by
  unfold insertVar
  split
  · assumption
  · simp

theorem compileGo_vars_mono (rpn : List Token) :
    ∀ (cnt : Int) (acc : List Op) (vl : List String),
    vl ⊆ (compileGo rpn cnt acc vl).2 := by
  induction rpn with
  | nil => intro cnt acc vl; exact List.Subset.refl vl
  | cons t rest ih =>
    intro cnt acc vl
    cases htt : t.type <;> simp only [compileGo, htt]
    case Variable =>
      exact (insertVar_subset vl t.str).trans (ih _ _ _)
    case Operator =>
      split
      · exact List.Subset.refl vl
      · exact ih _ _ _
    case Func1 =>
      split
      · exact List.Subset.refl vl
      · exact ih _ _ _
    case Func2 =>
      split
      · exact List.Subset.refl vl
      · exact ih _ _ _
    case Func3 =>
      split
      · exact List.Subset.refl vl
      · exact ih _ _ _
    all_goals exact ih _ _ _

theorem compileGo_isOk (rpn : List Token) :
    ∀ (cnt : Int) (acc : List Op) (vl : List String),
    (∀ t ∈ rpn, t.type ≠ TokenType.LParen ∧ t.type ≠ TokenType.RParen ∧
      t.type ≠ TokenType.Comma) →
    (compileGo rpn cnt acc vl).1.isOk = depthScan rpn cnt := by
  induction rpn with
  | nil =>
    intro cnt acc vl _
    simp only [compileGo, depthScan]
    split
    case isTrue h => simp [h, Except.isOk, Except.toBool]
    case isFalse h => simp [h, Except.isOk, Except.toBool, beq_iff_eq]
  | cons t rest ih =>
    intro cnt acc vl h
    have ht := h t (List.mem_cons_self t rest)
    have hrest := fun x hx => h x (List.mem_cons_of_mem t hx)
    cases htt : t.type <;> simp only [compileGo, depthScan, htt]
    case Variable => exact ih _ _ _ hrest
    case Constant => exact ih _ _ _ hrest
    case Real => exact ih _ _ _ hrest
    case Imaginary => exact ih _ _ _ hrest
    case Operator =>
      split
      · simp [Except.isOk, Except.toBool]
      · exact ih _ _ _ hrest
    case Func1 =>
      split
      · simp [Except.isOk, Except.toBool]
      · exact ih _ _ _ hrest
    case Func2 =>
      split
      · simp [Except.isOk, Except.toBool]
      · exact ih _ _ _ hrest
    case Func3 =>
      split
      · simp [Except.isOk, Except.toBool]
      · exact ih _ _ _ hrest
    case LParen => exact absurd htt ht.1
    case RParen => exact absurd htt ht.2.1
    case Comma => exact absurd htt ht.2.2

theorem compileGo_vars_recorded (rpn : List Token) :
    ∀ (cnt : Int) (acc : List Op) (vl : List String),
    (compileGo rpn cnt acc vl).1.isOk = true →
    ∀ t ∈ rpn, t.type = TokenType.Variable →
      t.str ∈ (compileGo rpn cnt acc vl).2 := by
  induction rpn with
  | nil => intro cnt acc vl _ t hmem; exact absurd hmem (List.not_mem_nil t)
  | cons t rest ih =>
    intro cnt acc vl hok x hmem hxvar
    rcases List.mem_cons.mp hmem with hx | hx
    · subst hx
      simp only [compileGo, hxvar] at hok ⊢
      exact compileGo_vars_mono rest _ _ _ (insertVar_self_mem vl x.str)
    · cases htt : t.type <;> simp only [compileGo, htt] at hok ⊢
      case Variable => exact ih _ _ _ hok x hx hxvar
      case Constant => exact ih _ _ _ hok x hx hxvar
      case Real => exact ih _ _ _ hok x hx hxvar
      case Imaginary => exact ih _ _ _ hok x hx hxvar
      case Operator =>
        split at hok
        · simp [Except.isOk, Except.toBool] at hok
        · rename_i hge
          rw [if_neg hge]
          exact ih _ _ _ hok x hx hxvar
      case Func1 =>
        split at hok
        · simp [Except.isOk, Except.toBool] at hok
        · rename_i hge
          rw [if_neg hge]
          exact ih _ _ _ hok x hx hxvar
      case Func2 =>
        split at hok
        · simp [Except.isOk, Except.toBool] at hok
        · rename_i hge
          rw [if_neg hge]
          exact ih _ _ _ hok x hx hxvar
      case Func3 =>
        split at hok
        · simp [Except.isOk, Except.toBool] at hok
        · rename_i hge
          rw [if_neg hge]
          exact ih _ _ _ hok x hx hxvar
      case LParen => exact ih _ _ _ hok x hx hxvar
      case RParen => exact ih _ _ _ hok x hx hxvar
      case Comma => exact ih _ _ _ hok x hx hxvar

theorem runOps_append (ops : MathOps) (l1 l2 : List Op) :
    ∀ (stack : List ValueType) (table : VarTable),
    runOps ops (l1 ++ l2) stack table =
      match runOps ops l1 stack table with
      | some s1 => runOps ops l2 s1 table
      | none => none := by
  induction l1 with
  | nil => intro stack table; rfl
  | cons op rest ih =>
    intro stack table
    simp only [List.cons_append, runOps]
    cases runOp ops op stack table with
    | none => rfl
    | some s1 => exact ih s1 table

/-- Central safety argument: if the compiler walk accepts the remaining
tokens starting from depth `cnt`, and the operations accumulated so far turn
the empty stack into a stack of length `cnt`, then the full compiled list
produces a single-element stack.  Hypotheses: the postfix sequence contains
no paren/comma tokens (the converter never emits them) and every
operator/function token carries a native behaviour (true of every token the
default registry classifies), and the table binds every recorded
variable. -/
theorem compileGo_sound (ops : MathOps) (rpn : List Token) :
    ∀ (cnt : Int) (acc : List Op) (vl : List String)
      (out : List Op) (vlOut : List String),
    compileGo rpn cnt acc vl = (Except.ok out, vlOut) →
    (∀ t ∈ rpn, t.type ≠ TokenType.LParen ∧ t.type ≠ TokenType.RParen ∧
      t.type ≠ TokenType.Comma) →
    (∀ t ∈ rpn, (t.type = TokenType.Operator ∨ t.type = TokenType.Func1 ∨
      t.type = TokenType.Func2 ∨ t.type = TokenType.Func3) →
      t.func.isSome = true) →
    ∀ (table : VarTable), (∀ s ∈ vlOut, table.contains s = true) →
    ∀ (stack : List ValueType), (stack.length : Int) = cnt →
    runOps ops acc [] table = some stack →
    ∃ v, runOps ops out [] table = some [v] := by
  induction rpn with
  | nil =>
    intro cnt acc vl out vlOut heq hp hf table hcov stack hlen hacc
    simp only [compileGo] at heq
    split at heq
    case isTrue hcnt =>
      simp only [Prod.mk.injEq, Except.ok.injEq] at heq
      obtain ⟨hout, hvl⟩ := heq
      subst hout
      have hl1 : stack.length = 1 := by omega
      obtain ⟨v, hv⟩ := List.length_eq_one.mp hl1
      exact ⟨v, by rw [hacc, hv]⟩
    case isFalse hcnt => simp at heq
  | cons t rest ih =>
    intro cnt acc vl out vlOut heq hp hf table hcov stack hlen hacc
    have hpt := hp t (List.mem_cons_self t rest)
    have hft := hf t (List.mem_cons_self t rest)
    have hprest := fun x hx => hp x (List.mem_cons_of_mem t hx)
    have hfrest := fun x hx => hf x (List.mem_cons_of_mem t hx)
    cases htt : t.type <;> simp only [compileGo, htt] at heq
    case Variable =>
      have hmem : t.str ∈ vlOut := by
        have hs := compileGo_vars_mono rest (cnt + 1)
          (acc ++ [Op.pushVar t.str]) (insertVar vl t.str)
        rw [heq] at hs
        exact hs (insertVar_self_mem vl t.str)
      have hcontains := hcov t.str hmem
      obtain ⟨v0, hv0⟩ : ∃ v0, table.find? t.str = some v0 := by
        unfold VarTable.contains at hcontains
        unfold VarTable.find?
        cases hlk : List.lookup t.str table with
        | none => rw [hlk] at hcontains; simp at hcontains
        | some v0 => exact ⟨v0, rfl⟩
      refine ih (cnt + 1) _ _ out vlOut heq hprest hfrest table hcov
        (v0 :: stack) (by simp only [List.length_cons]; push_cast; omega) ?_
      rw [runOps_append, hacc]
      simp [runOps, runOp, hv0]
    case Constant =>
      refine ih (cnt + 1) _ _ out vlOut heq hprest hfrest table hcov
        (t.value :: stack) (by simp only [List.length_cons]; push_cast; omega) ?_
      rw [runOps_append, hacc]
      simp [runOps, runOp]
    case Real =>
      refine ih (cnt + 1) _ _ out vlOut heq hprest hfrest table hcov
        (t.value :: stack) (by simp only [List.length_cons]; push_cast; omega) ?_
      rw [runOps_append, hacc]
      simp [runOps, runOp]
    case Imaginary =>
      refine ih (cnt + 1) _ _ out vlOut heq hprest hfrest table hcov
        (t.value :: stack) (by simp only [List.length_cons]; push_cast; omega) ?_
      rw [runOps_append, hacc]
      simp [runOps, runOp]
    case Operator =>
      split at heq
      · simp at heq
      · rename_i hge
        obtain ⟨fid, hfid⟩ := Option.isSome_iff_exists.mp (hft (Or.inl htt))
        have hklen : t.arg_num ≤ stack.length := by omega
        refine ih (cnt - t.arg_num + 1) _ _ out vlOut heq hprest hfrest table
          hcov (applyFunc ops fid (stack.take t.arg_num).reverse
            :: stack.drop t.arg_num) ?_ ?_
        · simp only [List.length_cons, List.length_drop]
          push_cast [Nat.cast_sub hklen]
          omega
        · rw [runOps_append, hacc]
          simp [runOps, runOp, Nat.not_lt.mpr hklen, hfid]
    case Func1 =>
      split at heq
      · simp at heq
      · rename_i hge
        obtain ⟨fid, hfid⟩ := Option.isSome_iff_exists.mp
          (hft (Or.inr (Or.inl htt)))
        have hklen : t.arg_num ≤ stack.length := by omega
        refine ih (cnt - t.arg_num + 1) _ _ out vlOut heq hprest hfrest table
          hcov (applyFunc ops fid (stack.take t.arg_num).reverse
            :: stack.drop t.arg_num) ?_ ?_
        · simp only [List.length_cons, List.length_drop]
          push_cast [Nat.cast_sub hklen]
          omega
        · rw [runOps_append, hacc]
          simp [runOps, runOp, Nat.not_lt.mpr hklen, hfid]
    case Func2 =>
      split at heq
      · simp at heq
      · rename_i hge
        obtain ⟨fid, hfid⟩ := Option.isSome_iff_exists.mp
          (hft (Or.inr (Or.inr (Or.inl htt))))
        have hklen : t.arg_num ≤ stack.length := by omega
        refine ih (cnt - t.arg_num + 1) _ _ out vlOut heq hprest hfrest table
          hcov (applyFunc ops fid (stack.take t.arg_num).reverse
            :: stack.drop t.arg_num) ?_ ?_
        · simp only [List.length_cons, List.length_drop]
          push_cast [Nat.cast_sub hklen]
          omega
        · rw [runOps_append, hacc]
          simp [runOps, runOp, Nat.not_lt.mpr hklen, hfid]
    case Func3 =>
      split at heq
      · simp at heq
      · rename_i hge
        obtain ⟨fid, hfid⟩ := Option.isSome_iff_exists.mp
          (hft (Or.inr (Or.inr (Or.inr htt))))
        have hklen : t.arg_num ≤ stack.length := by omega
        refine ih (cnt - t.arg_num + 1) _ _ out vlOut heq hprest hfrest table
          hcov (applyFunc ops fid (stack.take t.arg_num).reverse
            :: stack.drop t.arg_num) ?_ ?_
        · simp only [List.length_cons, List.length_drop]
          push_cast [Nat.cast_sub hklen]
          omega
        · rw [runOps_append, hacc]
          simp [runOps, runOp, Nat.not_lt.mpr hklen, hfid]
    case LParen => exact absurd htt hpt.1
    case RParen => exact absurd htt hpt.2.1
    case Comma => exact absurd htt hpt.2.2

/-- C1: the operator `^` is right-associative with the highest precedence
(2), `*` and `/` have precedence 1 left-associative, `+` and `-` have
precedence 0 left-associative; consequently postfix conversion of
`"2 ^ 3 ^ 2"` groups right-to-left (`2 3 2 ^ ^`) and, whenever the native
`pow` behaviour agrees with `std::pow` on the two exercised points (as IEEE
double does exactly), evaluation yields 512, not 64. -/
theorem C1_caret_right_assoc (ops : MathOps)
    (hpow32 : ops.pow 3 2 = 9) (hpow29 : ops.pow 2 9 = 512) :
    is_left_assoc "^" = false ∧ ret_preced "^" = 2 ∧
    is_left_assoc "*" = true ∧ ret_preced "*" = 1 ∧
    is_left_assoc "/" = true ∧ ret_preced "/" = 1 ∧
    is_left_assoc "+" = true ∧ ret_preced "+" = 0 ∧
    is_left_assoc "-" = true ∧ ret_preced "-" = 0 ∧
    (make_rpn ops (defaultRegistry ops) "2 ^ 3 ^ 2").map Token.str =
      ["2", "3", "2", "^", "^"] ∧
    evalFormula ops "2 ^ 3 ^ 2" = some 512 ∧ (512 : ValueType) ≠ 64 := by
  refine ⟨rfl, rfl, rfl, rfl, rfl, rfl, rfl, rfl, rfl, rfl, rfl, ?_,
    by norm_num⟩
  have h : evalFormula ops "2 ^ 3 ^ 2" = some (ops.pow (parseDecimal "2")
      (ops.pow (parseDecimal "3") (parseDecimal "2"))) := by rfl
  rw [h, show parseDecimal "2" = 2 from by decide,
    show parseDecimal "3" = 3 from by decide, hpow32, hpow29]

/-- Witness for C1: the sample instantiation satisfies both `pow`
hypotheses, and the claim's conclusion holds for it. -/
theorem C1_caret_right_assoc_witness :
    sampleOps.pow 3 2 = 9 ∧ sampleOps.pow 2 9 = 512 ∧
    (is_left_assoc "^" = false ∧ ret_preced "^" = 2 ∧
    is_left_assoc "*" = true ∧ ret_preced "*" = 1 ∧
    is_left_assoc "/" = true ∧ ret_preced "/" = 1 ∧
    is_left_assoc "+" = true ∧ ret_preced "+" = 0 ∧
    is_left_assoc "-" = true ∧ ret_preced "-" = 0 ∧
    (make_rpn sampleOps (defaultRegistry sampleOps) "2 ^ 3 ^ 2").map
      Token.str = ["2", "3", "2", "^", "^"] ∧
    evalFormula sampleOps "2 ^ 3 ^ 2" = some 512 ∧
    (512 : ValueType) ≠ 64) :=
  ⟨by decide, by decide,
    C1_caret_right_assoc sampleOps (by decide) (by decide)⟩

/-- C2 exhibit (code bug): after the matching `(` is discarded, the source
pops the new stack top whenever its `func` pointer is non-null
(lines 453-460) — but Operator tokens also carry non-null `func` pointers,
contradicting the source comment "only func type objects have function".  A
binary operator left below the `(` is therefore popped and emitted early
instead of competing by precedence: `"1 + (2) * 3"` converts to
`1 2 + 3 *` and evaluates to 9 = (1+2)*3 rather than 7. -/
theorem C2_rparen_pops_operator (ops : MathOps) :
    case_of_RParen [] [Token.ofString ops (defaultRegistry ops) "(",
        Token.ofString ops (defaultRegistry ops) "+"] =
      some ([Token.ofString ops (defaultRegistry ops) "+"], []) ∧
    (make_rpn ops (defaultRegistry ops) "1 + (2) * 3").map Token.str =
      ["1", "2", "+", "3", "*"] ∧
    evalFormula ops "1 + (2) * 3" = some 9 := by
  refine ⟨rfl, rfl, ?_⟩
  have h : evalFormula ops "1 + (2) * 3" =
      some ((parseDecimal "1" + parseDecimal "2") * parseDecimal "3") := by
    rfl
  rw [h, show parseDecimal "1" = 1 from by decide,
    show parseDecimal "2" = 2 from by decide,
    show parseDecimal "3" = 3 from by decide]
  norm_num

/-- C8: tokenizing and converting `"3 + 4 * 2"` yields the postfix order
`3 4 2 * +` and the compiled plan evaluates to 11, for every instantiation
of the mathematical library (only `+` and `*` are exercised). -/
theorem C8_three_plus_four_times_two (ops : MathOps) :
    (devide_to_tokens ops (defaultRegistry ops) "3 + 4 * 2").map Token.str =
      ["3", "+", "4", "*", "2"] ∧
    (make_rpn ops (defaultRegistry ops) "3 + 4 * 2").map Token.str =
      ["3", "4", "2", "*", "+"] ∧
    evalFormula ops "3 + 4 * 2" = some 11 := by
  refine ⟨rfl, rfl, ?_⟩
  have h : evalFormula ops "3 + 4 * 2" =
      some (parseDecimal "3" + parseDecimal "4" * parseDecimal "2") := by rfl
  rw [h, show parseDecimal "3" = 3 from by decide,
    show parseDecimal "4" = 4 from by decide,
    show parseDecimal "2" = 2 from by decide]
  norm_num

/-- C10: on a handle on which no parse ever succeeded (default-constructed,
or constructed from a formula string without parsing — both leave `vars` and
`crpn` empty, lines 769-772), `ret_func` passes its unbound-variable check
vacuously and returns a closure over the empty operation list; invoking the
closure runs no operation and reads `stack.front()` of the empty working
stack — the out-of-bounds read modelled by `none` — instead of reporting an
error. -/
theorem C10_retfunc_unparsed (ops : MathOps) (formula : String)
    (table : VarTable) (vname : String) (value : ValueType) :
    Syamfp.init.vars = [] ∧ Syamfp.init.crpn = [] ∧
    (Syamfp.ret_func ops ⟨formula, table, [], []⟩ vname).isOk = true ∧
    (Syamfp.ret_func ops ⟨formula, table, [], []⟩ vname).map
      (fun f => f value) = Except.ok none :=
  ⟨rfl, rfl, rfl, rfl⟩

/-- C3 counterexample: after successfully parsing `"x"` (free-variable set
`{x}`), a failing parse of `"y * z *"` (arity error in the compile stage)
returns `-EINVAL` but OVERWRITES the stored free-variable set with `{y, z}`
— and the previously successful compiled plan is no longer callable:
`ret_func "x"` now throws although it succeeded before the failed parse.
This refutes both "the free-variable set is unchanged" and "the previously
successful compiled plan remains callable". -/
theorem C3_failed_parse_clobbers_vars :
    (Syamfp.parse sampleOps (defaultRegistry sampleOps) Syamfp.init "x").1
      = 0 ∧
    "x" ∈ (Syamfp.parse sampleOps (defaultRegistry sampleOps) Syamfp.init
      "x").2.vars ∧
    ((Syamfp.parse sampleOps (defaultRegistry sampleOps) Syamfp.init
      "x").2.ret_func sampleOps "x").isOk = true ∧
    (Syamfp.parse sampleOps (defaultRegistry sampleOps)
      (Syamfp.parse sampleOps (defaultRegistry sampleOps) Syamfp.init
        "x").2 "y * z *").1 = -22 ∧
    "x" ∉ (Syamfp.parse sampleOps (defaultRegistry sampleOps)
      (Syamfp.parse sampleOps (defaultRegistry sampleOps) Syamfp.init
        "x").2 "y * z *").2.vars ∧
    ((Syamfp.parse sampleOps (defaultRegistry sampleOps)
      (Syamfp.parse sampleOps (defaultRegistry sampleOps) Syamfp.init
        "x").2 "y * z *").2.ret_func sampleOps "x").isOk = false := by
  decide

/-- C3 as amended: a failed `parse` returns `-EINVAL` and leaves the stored
compiled plan, formula string and binding unchanged; the free-variable set
is also unchanged when the failure comes from the postfix stage, but when a
converted postfix sequence fails to compile, the free-variable set is
replaced by whatever the aborted compile walk recorded. -/
theorem C3_amended_failed_parse_state (ops : MathOps) (reg : Registry)
    (s : Syamfp) (formula : String)
    (h : (Syamfp.parse ops reg s formula).1 ≠ 0) :
    (Syamfp.parse ops reg s formula).1 = -22 ∧
    (Syamfp.parse ops reg s formula).2.crpn = s.crpn ∧
    (Syamfp.parse ops reg s formula).2.formula = s.formula ∧
    (Syamfp.parse ops reg s formula).2.table = s.table ∧
    (make_rpn ops reg formula = [] →
      (Syamfp.parse ops reg s formula).2.vars = s.vars) ∧
    (make_rpn ops reg formula ≠ [] →
      (Syamfp.parse ops reg s formula).2.vars =
        (compile_RPN (make_rpn ops reg formula)).2) := by
  by_cases hm : make_rpn ops reg formula = []
  · simp [Syamfp.parse, hm]
  · rcases hc : compile_RPN (make_rpn ops reg formula) with ⟨e, vl⟩
    cases e with
    | ok crpn =>
      exfalso
      apply h
      simp [Syamfp.parse, hm, hc]
    | error msg =>
      simp [Syamfp.parse, hm, hc]

/-- Witness for C3's amended statement at the concrete failing parse of
`"pow(1)"` from a fresh handle. -/
theorem C3_amended_failed_parse_state_witness :
    (Syamfp.parse sampleOps (defaultRegistry sampleOps) Syamfp.init
      "pow(1)").1 = -22 ∧
    (Syamfp.parse sampleOps (defaultRegistry sampleOps) Syamfp.init
      "pow(1)").2.crpn = Syamfp.init.crpn ∧
    (Syamfp.parse sampleOps (defaultRegistry sampleOps) Syamfp.init
      "pow(1)").2.formula = Syamfp.init.formula ∧
    (Syamfp.parse sampleOps (defaultRegistry sampleOps) Syamfp.init
      "pow(1)").2.table = Syamfp.init.table ∧
    (make_rpn sampleOps (defaultRegistry sampleOps) "pow(1)" = [] →
      (Syamfp.parse sampleOps (defaultRegistry sampleOps) Syamfp.init
        "pow(1)").2.vars = Syamfp.init.vars) ∧
    (make_rpn sampleOps (defaultRegistry sampleOps) "pow(1)" ≠ [] →
      (Syamfp.parse sampleOps (defaultRegistry sampleOps) Syamfp.init
        "pow(1)").2.vars =
        (compile_RPN (make_rpn sampleOps (defaultRegistry sampleOps)
          "pow(1)")).2) :=
  C3_amended_failed_parse_state sampleOps (defaultRegistry sampleOps)
    Syamfp.init "pow(1)" (by decide)

/-- C4 counterexample: the converter sets `is_prev_token_operator` to
`false` on a Comma (line 562), so unary-sign rewriting is NOT applied to a
sign immediately following a comma.  In `"pow(2,-3)"` the `-` is treated as
a binary operator: no synthetic `-1` literal appears in the postfix output
(`2 3 - pow`, not `2 -1 3 * - pow`), and the whole parse fails with an arity
error instead of succeeding — refuting the claim that a signed argument
after a comma parses the same way. -/
theorem C4_no_rewrite_after_comma :
    (make_rpn sampleOps (defaultRegistry sampleOps) "pow(2,-3)").map
      Token.str = ["2", "3", "-", "pow"] ∧
    (Syamfp.parse sampleOps (defaultRegistry sampleOps) Syamfp.init
      "pow(2,-3)").1 = -22 := by
  decide

/-- C4 as amended: unary-sign rewriting applies to an Operator token when
the previous context is operator-like — at the start of the expression,
after `(`, or after another operator, but NOT after `,`: a rewritten `+` is
dropped entirely and a rewritten `-` emits a synthetic `-1` literal and is
reprocessed as `*`; `"-3 + 5"` evaluates to 2 and `"-sin(0)"` evaluates to 0
(whenever the native `sin` sends 0 to 0, as IEEE double does exactly), while
a signed argument immediately after a comma, e.g. `"pow(2,-3)"`, is treated
as a binary sign and the parse fails. -/
theorem C4_amended_unary_rewrite (ops : MathOps) (hsin : ops.sin 0 = 0) :
    (∀ (reg : Registry) (rpn stack : List Token) (t : Token),
      t.str = "+" → case_of_Operator ops reg rpn stack t true = (rpn, stack)) ∧
    (∀ (reg : Registry) (rpn stack : List Token) (t : Token),
      t.str = "-" → case_of_Operator ops reg rpn stack t true =
        opPopLoop (rpn ++ [Token.ofString ops reg "-1"]) stack
          (Token.ofString ops reg "*")) ∧
    evalFormula ops "-3 + 5" = some 2 ∧
    evalFormula ops "-sin(0)" = some 0 ∧
    (Syamfp.parse ops (defaultRegistry ops) Syamfp.init "pow(2,-3)").1 = -22
    := by
  refine ⟨?_, ?_, ?_, ?_, by rfl⟩
  · intro reg rpn stack t ht
    simp [case_of_Operator, ht]
  · intro reg rpn stack t ht
    simp [case_of_Operator, ht]
  · have h : evalFormula ops "-3 + 5" =
        some (parseDecimal "-1" * parseDecimal "3" + parseDecimal "5") := by
      rfl
    rw [h, show parseDecimal "-1" = -1 from by decide,
      show parseDecimal "3" = 3 from by decide,
      show parseDecimal "5" = 5 from by decide]
    norm_num
  · have h : evalFormula ops "-sin(0)" =
        some (parseDecimal "-1" * ops.sin (parseDecimal "0")) := by rfl
    rw [h, show parseDecimal "0" = 0 from by decide, hsin,
      show parseDecimal "-1" = -1 from by decide]
    norm_num

/-- Witness for C4's amended statement: the sample instantiation satisfies
`sin 0 = 0` and the amended conclusions hold for it. -/
theorem C4_amended_unary_rewrite_witness :
    sampleOps.sin 0 = 0 ∧
    ((∀ (reg : Registry) (rpn stack : List Token) (t : Token),
      t.str = "+" →
        case_of_Operator sampleOps reg rpn stack t true = (rpn, stack)) ∧
    (∀ (reg : Registry) (rpn stack : List Token) (t : Token),
      t.str = "-" → case_of_Operator sampleOps reg rpn stack t true =
        opPopLoop (rpn ++ [Token.ofString sampleOps reg "-1"]) stack
          (Token.ofString sampleOps reg "*")) ∧
    evalFormula sampleOps "-3 + 5" = some 2 ∧
    evalFormula sampleOps "-sin(0)" = some 0 ∧
    (Syamfp.parse sampleOps (defaultRegistry sampleOps) Syamfp.init
      "pow(2,-3)").1 = -22) :=
  ⟨rfl, C4_amended_unary_rewrite sampleOps rfl⟩

/-- C5 counterexample: `add_custom_function` uses `unordered_map::insert`,
which does NOT overwrite an existing key.  Registering `"sin"` as a
two-argument function leaves the built-in entry in place: the subsequent
lookup still returns category `Func1` with arity 1, not the newly supplied
category and arity — refuting "overwrites the registry entry ... even when
the name already existed (including built-ins, which are silently
shadowed)". -/
theorem C5_insert_does_not_overwrite :
    Registry.find? (add_custom_function (defaultRegistry sampleOps) "sin"
      TokenType.Func2 2 FuncId.pow) "sin" =
      Registry.find? (defaultRegistry sampleOps) "sin" ∧
    (Registry.find? (add_custom_function (defaultRegistry sampleOps) "sin"
      TokenType.Func2 2 FuncId.pow) "sin").map Token.arg_num = some 1 ∧
    (Registry.find? (add_custom_function (defaultRegistry sampleOps) "sin"
      TokenType.Func2 2 FuncId.pow) "sin").map Token.type =
      some TokenType.Func1 := by
  decide

/-- C5 as amended: registering a custom function never fails; it inserts the
new entry when the name is absent, but when the name already exists
(including built-ins) the existing entry is retained and the registration
has no effect on any lookup. -/
theorem C5_amended_register_insert_only (reg : Registry) (name : String)
    (type : TokenType) (arg_num : ℕ) (lambda : FuncId) (s : String) :
    Registry.find? (add_custom_function reg name type arg_num lambda) s =
      (if s = name ∧ Registry.find? reg name = none
       then some ⟨name, type, arg_num, 0, some lambda⟩
       else Registry.find? reg s) := by
  unfold add_custom_function Registry.insert Registry.find?
  by_cases hn : (List.lookup name reg).isSome
  · rw [if_pos hn, if_neg]
    rintro ⟨rfl, h0⟩
    rw [h0] at hn
    simp at hn
  · rw [if_neg hn]
    have hnone : List.lookup name reg = none :=
      Option.not_isSome_iff_eq_none.mp hn
    by_cases hs : s = name
    · subst hs
      rw [if_pos ⟨rfl, hnone⟩]
      simp [List.lookup]
    · rw [if_neg (by rintro ⟨h, _⟩; exact hs h)]
      have hb : (s == name) = false := by simp [hs]
      simp [List.lookup, hb]

/-- C6: the compiler validates a postfix sequence with a single depth
counter started at 0 — value tokens add one (variables also being recorded
into the free-variable set), operator/function tokens subtract their arity
with an immediate failure on a negative counter, then add one — and
compilation succeeds exactly when the scan does, the final depth being 1;
in particular `"pow(1)"` is rejected at compile time with the arity-error
message naming `pow`. -/
theorem C6_depth_counter_validation (rpn : List Token)
    (h : ∀ t ∈ rpn, t.type ≠ TokenType.LParen ∧ t.type ≠ TokenType.RParen ∧
      t.type ≠ TokenType.Comma) :
    ((compile_RPN rpn).1.isOk = depthScan rpn 0) ∧
    ((compile_RPN rpn).1.isOk = true → ∀ t ∈ rpn,
      t.type = TokenType.Variable → t.str ∈ (compile_RPN rpn).2) ∧
    (compile_RPN (make_rpn sampleOps (defaultRegistry sampleOps)
      "pow(1)")).1 =
      Except.error "Invalid formula: missing number of argument for pow" :=
  ⟨compileGo_isOk rpn 0 [] [] h,
   fun hok => compileGo_vars_recorded rpn 0 [] [] hok, by rfl⟩

/-- Witness for C6 at the concrete postfix sequence of `"x + y * 2"`
(tokens `x y 2 * +`, no parens), whose compile succeeds recording `x` and
`y`. -/
theorem C6_depth_counter_validation_witness :
    (∀ t ∈ make_rpn sampleOps (defaultRegistry sampleOps) "x + y * 2",
      t.type ≠ TokenType.LParen ∧ t.type ≠ TokenType.RParen ∧
      t.type ≠ TokenType.Comma) ∧
    (((compile_RPN (make_rpn sampleOps (defaultRegistry sampleOps)
        "x + y * 2")).1.isOk =
      depthScan (make_rpn sampleOps (defaultRegistry sampleOps)
        "x + y * 2") 0) ∧
    ((compile_RPN (make_rpn sampleOps (defaultRegistry sampleOps)
        "x + y * 2")).1.isOk = true →
      ∀ t ∈ make_rpn sampleOps (defaultRegistry sampleOps) "x + y * 2",
        t.type = TokenType.Variable →
          t.str ∈ (compile_RPN (make_rpn sampleOps
            (defaultRegistry sampleOps) "x + y * 2")).2) ∧
    (compile_RPN (make_rpn sampleOps (defaultRegistry sampleOps)
      "pow(1)")).1 =
      Except.error "Invalid formula: missing number of argument for pow") :=
  ⟨by decide, C6_depth_counter_validation
    (make_rpn sampleOps (defaultRegistry sampleOps) "x + y * 2")
    (by decide)⟩

/-- C7: an operation list produced by a successful compile of a postfix
sequence (one without paren/comma tokens and whose operator/function tokens
carry native behaviours — true of every sequence the converter emits from
the registry), executed against any binding containing all recorded
variables, never pops an empty stack and finishes with exactly one value on
the working stack, the returned result. -/
theorem C7_eval_never_underflows (ops : MathOps) (rpn : List Token)
    (hp : ∀ t ∈ rpn, t.type ≠ TokenType.LParen ∧
      t.type ≠ TokenType.RParen ∧ t.type ≠ TokenType.Comma)
    (hf : ∀ t ∈ rpn, (t.type = TokenType.Operator ∨
      t.type = TokenType.Func1 ∨ t.type = TokenType.Func2 ∨
      t.type = TokenType.Func3) → t.func.isSome = true)
    (crpn : List Op) (vl : List String)
    (hc : compile_RPN rpn = (Except.ok crpn, vl))
    (table : VarTable) (hcov : ∀ s ∈ vl, table.contains s = true) :
    ∃ v, runOps ops crpn [] table = some [v] :=
  compileGo_sound ops rpn 0 [] [] crpn vl hc hp hf table hcov [] rfl rfl

/-- Witness for C7 at the compiled plan of `"3 + 4 * 2"` under the empty
binding. -/
theorem C7_eval_never_underflows_witness :
    ∃ v, runOps sampleOps
      [Op.pushVal (parseDecimal "3"), Op.pushVal (parseDecimal "4"),
       Op.pushVal (parseDecimal "2"), Op.applyTok 2 (some FuncId.mul),
       Op.applyTok 2 (some FuncId.add)] [] [] = some [v] :=
  C7_eval_never_underflows sampleOps
    (make_rpn sampleOps (defaultRegistry sampleOps) "3 + 4 * 2")
    (by decide) (by decide) _ _ rfl [] (by decide)

/-- C9: constructing the unary evaluator fails exactly when some variable in
the stored free-variable set is neither contained in the stored binding nor
equal to the designated free-variable name; and the function it returns on
success computes, per call, the run of the compiled plan against the stored
binding merged with the free variable's value (returning the front of the
final working stack). -/
theorem C9_retfunc_unbound_check (ops : MathOps) (s : Syamfp)
    (vname : String) :
    ((s.ret_func ops vname).isOk = true ↔
      ∀ str ∈ s.vars, s.table.contains str = true ∨ str = vname) ∧
    (∀ value : ValueType,
      (s.ret_func ops vname).map (fun f => f value) =
      (s.ret_func ops vname).map (fun _ =>
        (runOps ops s.crpn [] (s.table.insert vname value)).bind
          (fun stack => stack.getLast?))) := by
  constructor
  · unfold Syamfp.ret_func
    by_cases h : s.vars.any
        (fun str => decide (s.table.contains str = false ∧ str ≠ vname))
    · rw [if_pos h]
      simp only [Except.isOk, Except.toBool]
      constructor
      · intro hfalse
        exact absurd hfalse (by simp)
      · intro hall
        obtain ⟨x, hx, hpx⟩ := List.any_eq_true.mp h
        simp only [decide_eq_true_eq] at hpx
        rcases hall x hx with hcon | hveq
        · rw [hpx.1] at hcon
          exact absurd hcon (by simp)
        · exact absurd hveq hpx.2
    · rw [if_neg h]
      simp only [Except.isOk, Except.toBool, true_iff]
      intro str hstr
      by_cases hc : s.table.contains str = true
      · exact Or.inl hc
      · right
        by_contra hne
        apply h
        refine List.any_eq_true.mpr ⟨str, hstr, ?_⟩
        simp only [decide_eq_true_eq]
        exact ⟨by simpa using hc, hne⟩
  · intro value
    unfold Syamfp.ret_func
    split
    · rfl
    · rfl

end SYAMFP
